import Mathlib

/-!
Verification of the slot scheduling and booking admission engine.

The definitions below are a shallow embedding of the backend request
handler (the Cloudflare Pages function): the booking admission path of
POST /bookings, the slot generation path of POST /staff/slots/generate,
booking cancellation (DELETE /staff/bookings/:id), single slot creation
(POST /staff/slots) and the staff slot edit (PUT /staff/slots/:id).
Database rows are modelled as Lean structures holding the columns the
claims are about; SQL statements become pure state transformers.  JS
numbers on these paths are integers, modelled as Int (with Nat for date
components coming from the digit regex); the JS remainder operator is
Int.tmod and Math.floor of a quotient is Int.fdiv.  The two source
while loops that can genuinely diverge (the recurring date walk and the
time window walk) take an explicit fuel argument and return none when
the fuel is exhausted, so divergence is observable.
-/

/-- JS String.prototype.trim over the character list (whitespace
stripped from both ends). -/
def jsTrim (s : String) : String :=
  String.mk (((s.data.dropWhile Char.isWhitespace).reverse.dropWhile
    Char.isWhitespace).reverse)

/-- Models sanitizeString: trim and cut to 255 characters. -/
def sanitizeString (s : String) : String := String.mk ((jsTrim s).data.take 255)

/-- Models validateString (the value is known to be a string here). -/
def validStr (s : String) (minLen maxLen : Nat) : Bool :=
  decide (minLen ≤ (jsTrim s).data.length) && decide (s.data.length ≤ maxLen)

/-- A row of the slots table (columns used by the claims). -/
structure Slot where
  id : String
  subjectId : String
  startTime : String
  duration : Int
  maxCapacity : Int
  currentBookings : Int
  location : String
deriving Repr, DecidableEq

/-- A row of the bookings table (the uuid id plus the columns used by
the duplicate check; the remaining text columns play no role in any
claim). -/
structure BookingRow where
  id : String
  slotId : String
  studentId : String
deriving Repr, DecidableEq

/-- The database state seen by the handlers. -/
structure DBState where
  slots : List Slot
  bookings : List BookingRow
deriving Repr, DecidableEq

/-- SELECT ... FROM slots WHERE id = ? (the handler reads row 0). -/
def findSlot (s : DBState) (slotId : String) : Option Slot :=
  s.slots.find? (fun sl => sl.id == slotId)

/-- SELECT id FROM bookings WHERE slot_id = ? AND student_id = ?,
tested for a nonempty result. -/
def hasBooking (s : DBState) (slotId studentId : String) : Bool :=
  s.bookings.any (fun b => b.slotId == slotId && b.studentId == studentId)

/-- UPDATE slots SET current_bookings = current_bookings + 1
WHERE id = ? AND current_bookings = ? AND current_bookings < max_capacity. -/
def condIncrement (s : DBState) (slotId : String) (expected : Int) : DBState :=
  { s with slots := s.slots.map fun sl =>
      if sl.id = slotId ∧ sl.currentBookings = expected ∧ sl.currentBookings < sl.maxCapacity
      then { sl with currentBookings := sl.currentBookings + 1 } else sl }

/-- UPDATE slots SET current_bookings = GREATEST(current_bookings - 1, 0)
WHERE id = ? (used both for compensation and for cancellation). -/
def flooredDecrement (s : DBState) (slotId : String) : DBState :=
  { s with slots := s.slots.map fun sl =>
      if sl.id = slotId
      then { sl with currentBookings := max (sl.currentBookings - 1) 0 } else sl }

/-- Outcome of one POST /bookings attempt, keeping the response text. -/
inductive BookResult where
  | badRequest (msg : String)
  | slotFull (msg : String)
  | success (bookingId : String)
  | insertFailed
deriving Repr, DecidableEq

/-- HTTP status the handler answers with for each outcome (an insert
failure is rethrown and caught by the top level handler as a 500). -/
def statusOf : BookResult → Nat
  | .badRequest _ => 400
  | .slotFull _ => 409
  | .success _ => 200
  | .insertFailed => 500

/-- The admission path of POST /bookings after field validation: the
duplicate check, the availability pre-check, the conditional increment,
the verification re-read, and the booking insert with compensating
decrement on failure.  insertOk models whether the INSERT INTO bookings
statement succeeds; bookingId models the generated uuid. -/
def bookingAdmission (s : DBState) (slotId rawStudentId bookingId : String)
    (insertOk : Bool) : BookResult × DBState :=
  if hasBooking s slotId (sanitizeString rawStudentId) then
    (BookResult.badRequest "You have already booked this slot", s)
  else
    match findSlot s slotId with
    | none => (BookResult.badRequest "Slot no longer exists", s)
    | some slot =>
      if slot.currentBookings ≥ slot.maxCapacity then
        (BookResult.slotFull "Sorry, this slot is fully booked!", s)
      else
        match findSlot (condIncrement s slotId slot.currentBookings) slotId with
        | none =>
          (BookResult.slotFull "Sorry, this slot just got fully booked!",
           condIncrement s slotId slot.currentBookings)
        | some updated =>
          if updated.currentBookings ≤ slot.currentBookings then
            (BookResult.slotFull "Sorry, this slot just got fully booked!",
             condIncrement s slotId slot.currentBookings)
          else
            if insertOk then
              (BookResult.success bookingId,
               { condIncrement s slotId slot.currentBookings with
                 bookings := (condIncrement s slotId slot.currentBookings).bookings ++
                   [⟨bookingId, slotId, sanitizeString rawStudentId⟩] })
            else
              (BookResult.insertFailed,
               flooredDecrement (condIncrement s slotId slot.currentBookings) slotId)

/-- DELETE /staff/bookings/:id: look the booking up, delete it, then
apply the floored decrement to its slot; none models the 404 branch. -/
def cancelBooking (s : DBState) (bookingId : String) : Option DBState :=
  match s.bookings.find? (fun b => b.id == bookingId) with
  | none => none
  | some b =>
    let s1 : DBState := { s with bookings := s.bookings.filter (fun bb => bb.id != bookingId) }
    some (flooredDecrement s1 b.slotId)

/-- JS expression v OR dflt on a number field: 0, null and undefined
fall back to the default. -/
def jsOrInt (v : Option Int) (dflt : Int) : Int :=
  match v with
  | some x => if x = 0 then dflt else x
  | none => dflt

/-- JS expression v OR dflt on a string field: the empty string, null
and undefined fall back to the default. -/
def jsOrStr (v : Option String) (dflt : String) : String :=
  match v with
  | some x => if x = "" then dflt else x
  | none => dflt

/-- POST /staff/slots: insert one slot with current_bookings = 0,
defaulting falsy duration to 20 and falsy capacity to 1. -/
def createSlot (s : DBState) (slotId subjectId startTime : String)
    (duration maxCapacity : Option Int) (location : Option String) : DBState :=
  { s with slots := s.slots ++
      [⟨slotId, subjectId, startTime, jsOrInt duration 20, jsOrInt maxCapacity 1, 0,
        sanitizeString (location.getD "")⟩] }

/-- PUT /staff/slots/:id: apply exactly the provided fields to the slot
row; the max_capacity update carries no guard against the current
booking count.  (The startTime update, a date reformat, is omitted: no
claim concerns it.) -/
def staffUpdateSlot (s : DBState) (slotId : String)
    (maxCapacity duration : Option Int) (location subjectId : Option String) : DBState :=
  { s with slots := s.slots.map fun sl =>
      if sl.id = slotId then
        { sl with
          maxCapacity := maxCapacity.getD sl.maxCapacity,
          duration := duration.getD sl.duration,
          location := (location.map sanitizeString).getD sl.location,
          subjectId := subjectId.getD sl.subjectId }
      else sl }

/-- The slot capacity invariant of the data model. -/
def slotInvariant (sl : Slot) : Prop :=
  0 ≤ sl.currentBookings ∧ sl.currentBookings ≤ sl.maxCapacity

/-- The invariant over every slot row of the state. -/
def dbInvariant (s : DBState) : Prop := ∀ sl ∈ s.slots, slotInvariant sl

/-- Bookings with a given (slot id, student id) pair. -/
def pairCount (s : DBState) (slotId studentId : String) : Nat :=
  (s.bookings.filter (fun b => b.slotId == slotId && b.studentId == studentId)).length

/-- Digit list to its decimal value. -/
def digitsToNat (cs : List Char) : Nat :=
  cs.foldl (fun a c => a * 10 + (c.toNat - 48)) 0

/-- A calendar date as the three captured components of the source
regex (year, month, day as written, not yet validated). -/
structure DateYMD where
  year : Nat
  month : Nat
  day : Nat
deriving Repr, DecidableEq

/-- Models parseDateStr: match of the regex for a leading YYYY-MM-DD,
returning the three numeric captures. -/
def parseDateStr (s : String) : Option DateYMD :=
  match s.data with
  | y1 :: y2 :: y3 :: y4 :: c1 :: m1 :: m2 :: c2 :: d1 :: d2 :: _ =>
    if y1.isDigit && y2.isDigit && y3.isDigit && y4.isDigit && c1 == '-' &&
       m1.isDigit && m2.isDigit && c2 == '-' && d1.isDigit && d2.isDigit then
      some ⟨digitsToNat [y1, y2, y3, y4], digitsToNat [m1, m2], digitsToNat [d1, d2]⟩
    else none
  | _ => none

/-- JS Number() of the parts produced by splitting a clock time on a
colon: digits give their value (the empty string gives 0), anything
else is NaN, modelled as none. -/
def jsNumberDigits (s : String) : Option Int :=
  if s.data.all (fun c => c.isDigit) then some (digitsToNat s.data) else none

/-- JS String.prototype.split on a single character separator, over
the character list. -/
def splitChar (c : Char) : List Char → List (List Char)
  | [] => [[]]
  | x :: xs =>
    if x = c then [] :: splitChar c xs
    else
      match splitChar c xs with
      | [] => [[x]]
      | g :: gs => (x :: g) :: gs

/-- Models parseTimeToMinutes: split on the colon and compute
h * 60 + m.  A missing or non numeric component makes the source value
NaN; that is modelled as none (every comparison against NaN in the
walks is false, which the callers below reproduce). -/
def parseTimeToMinutes (timeStr : String) : Option Int :=
  match (splitChar ':' timeStr.data).map String.mk with
  | h :: m :: _ =>
    match jsNumberDigits h, jsNumberDigits m with
    | some hv, some mv => some (hv * 60 + mv)
    | _, _ => none
  | _ => none

/-- String(n).padStart(2, the zero digit). -/
def pad2 (n : Int) : String :=
  let s := toString n
  if s.length < 2 then "0" ++ s else s

/-- Models minutesToTimeStr: HH:MM:00 from minutes since midnight
(Math.floor for the hour is Int.fdiv, the JS remainder is Int.tmod). -/
def minutesToTimeStr (mins : Int) : String :=
  pad2 (mins.fdiv 60) ++ ":" ++ pad2 (mins.tmod 60) ++ ":00"

/-- Models getDayOfWeek: the Zeller congruence of the source, with the
JS remainder as Int.tmod and Math.floor divisions as Int.fdiv, then
normalized so 0 = Sunday. -/
def getDayOfWeek (year month day : Nat) : Int :=
  let y : Int := if month < 3 then (year : Int) - 1 else (year : Int)
  let m : Int := if month < 3 then (month : Int) + 12 else (month : Int)
  let q : Int := (day : Int)
  let k : Int := y.tmod 100
  let j : Int := y.fdiv 100
  let h : Int :=
    (q + Int.fdiv (13 * (m + 1)) 5 + k + Int.fdiv k 4 + Int.fdiv j 4 - 2 * j).tmod 7
  (h + 6).tmod 7

/-- The leap year rule of the source. -/
def isLeapYear (y : Nat) : Bool :=
  (y % 4 == 0 && y % 100 != 0) || y % 400 == 0

/-- The daysInMonth array lookup: index 0 holds 0, February holds the
current febLen, indexes above 12 are out of bounds (undefined in JS,
which makes the loop guard false). -/
def monthLen (febLen : Nat) (m : Nat) : Option Nat :=
  match m with
  | 0 => some 0
  | 1 => some 31
  | 2 => some febLen
  | 3 => some 31
  | 4 => some 30
  | 5 => some 31
  | 6 => some 30
  | 7 => some 31
  | 8 => some 31
  | 9 => some 30
  | 10 => some 31
  | 11 => some 30
  | 12 => some 31
  | _ => none

/-- The while loop of addDays.  Every iteration with a month between 1
and 12 lowers day by at least 28 and the month 0 case can occur at most
once, so the fuel passed by addDays strictly dominates the number of
iterations of the source loop and the fuel 0 branch is unreachable. -/
def addDaysLoop : Nat → Nat → Nat → Nat → Nat → DateYMD
  | 0, year, month, day, _ => ⟨year, month, day⟩
  | fuel + 1, year, month, day, febLen =>
    match monthLen febLen month with
    | none => ⟨year, month, day⟩
    | some len =>
      if day > len then
        let day2 := day - len
        let month2 := month + 1
        if month2 > 12 then
          addDaysLoop fuel (year + 1) 1 day2 (if isLeapYear (year + 1) then 29 else 28)
        else
          addDaysLoop fuel year month2 day2 febLen
      else ⟨year, month, day⟩

/-- Models addDays: add the days, then normalize with the month
rollover loop (the febLen argument tracks the mutable daysInMonth
February entry of the source). -/
def addDays (year month day daysToAdd : Nat) : DateYMD :=
  addDaysLoop (day + daysToAdd + 2) year month (day + daysToAdd)
    (if isLeapYear year then 29 else 28)

/-- Models compareDates. -/
def compareDates (a b : DateYMD) : Int :=
  if a.year ≠ b.year then (a.year : Int) - (b.year : Int)
  else if a.month ≠ b.month then (a.month : Int) - (b.month : Int)
  else (a.day : Int) - (b.day : Int)

/-- The YYYY-MM-DD rendering of the recurring walk (the year is
printed as is, month and day zero padded to two digits). -/
def fmtDate (d : DateYMD) : String :=
  toString d.year ++ "-" ++ pad2 (d.month : Int) ++ "-" ++ pad2 (d.day : Int)

/-- The day filter test: no filter, an empty filter, or membership. -/
def daysMatch (days : Option (List Int)) (dow : Int) : Bool :=
  match days with
  | none => true
  | some l => l.isEmpty || l.contains dow

/-- The recurring date walk of the generation handler: from current to
endD inclusive, keeping days that pass the filter.  The source loop can
diverge (a month outside 1..12 never rolls the year over), so the walk
consumes one fuel per iteration and returns none when it runs out. -/
def dateWalk (days : Option (List Int)) (endD : DateYMD) :
    Nat → DateYMD → List String → Option (List String)
  | 0, current, acc =>
    if compareDates current endD ≤ 0 then none else some acc
  | fuel + 1, current, acc =>
    if compareDates current endD ≤ 0 then
      let dow := getDayOfWeek current.year current.month current.day
      let acc2 := if daysMatch days dow then acc ++ [fmtDate current] else acc
      dateWalk days endD fuel (addDays current.year current.month current.day 1) acc2
    else some acc

/-- The time window walk: emit a start minute while the slot still fits
in the window, stepping by slotInterval, except that a slot overlapping
an active lunch window is skipped and the walk resumes from the lunch
end.  The lunch guard reproduces the source truthiness test: the lunch
object present and both minute values nonzero.  The loop diverges when
slotInterval is not positive, so it consumes one fuel per iteration and
returns none when it runs out. -/
def timeWalk (lunchOn : Bool) (lunchStartMin lunchEndMin duration slotInterval endMin : Int) :
    Nat → Int → List Int → Option (List Int)
  | 0, currMin, acc =>
    if currMin + duration ≤ endMin then none else some acc
  | fuel + 1, currMin, acc =>
    if currMin + duration ≤ endMin then
      if lunchOn = true ∧ lunchStartMin ≠ 0 ∧ lunchEndMin ≠ 0 ∧
         currMin < lunchEndMin ∧ currMin + duration > lunchStartMin then
        timeWalk lunchOn lunchStartMin lunchEndMin duration slotInterval endMin
          fuel lunchEndMin acc
      else
        timeWalk lunchOn lunchStartMin lunchEndMin duration slotInterval endMin
          fuel (currMin + slotInterval) (acc ++ [currMin])
    else some acc

/-- A time range of the request body. -/
structure TimeRange where
  startTime : String
  endTime : String
deriving Repr, DecidableEq

/-- The lunchBreak object of the request body; stop models the JSON
field named end (a Lean keyword). -/
structure LunchBreak where
  start : Option String
  stop : Option String
deriving Repr, DecidableEq

/-- The POST /staff/slots/generate request body (fields the handler
destructures).  Absent or null JSON fields are none. -/
structure GenReq where
  subjectId : String
  dates : Option (List String)
  startDate : Option String
  endDate : Option String
  timeRanges : Option (List TimeRange)
  startTime : Option String
  endTime : Option String
  duration : Int
  capacity : Int
  days : Option (List Int)
  breakTime : Option Int
  location : Option String
  lunchBreak : Option LunchBreak
deriving Repr, DecidableEq

/-- The effective time ranges: the provided nonempty list, otherwise
one default range from startTime OR 09:00 to endTime OR 17:00. -/
def effRanges (r : GenReq) : List TimeRange :=
  match r.timeRanges with
  | some l =>
    if l.isEmpty then [⟨jsOrStr r.startTime "09:00", jsOrStr r.endTime "17:00"⟩] else l
  | none => [⟨jsOrStr r.startTime "09:00", jsOrStr r.endTime "17:00"⟩]

/-- The lunch minute pair: parsed when the lunch object carries both a
truthy start and a truthy end, otherwise left at the (0, 0) initial
values.  An unparseable clock time is NaN in the source; both NaN and 0
are falsy in the lunch guard, so none is mapped to 0. -/
def lunchMins (r : GenReq) : Int × Int :=
  match r.lunchBreak with
  | some lb =>
    match lb.start, lb.stop with
    | some s, some e =>
      if s ≠ "" ∧ e ≠ "" then
        ((parseTimeToMinutes s).getD 0, (parseTimeToMinutes e).getD 0)
      else (0, 0)
    | _, _ => (0, 0)
  | none => (0, 0)

/-- The filter of the explicit dates branch: keep truthy strings the
date regex accepts. -/
def dateValid (d : String) : Bool := d != "" && (parseDateStr d).isSome

/-- The recurring branch of date resolution: an empty result when
startDate is falsy, the Invalid date format error when a provided date
does not parse, otherwise the inclusive date walk (endDate falsy
defaults the end to the start). -/
def resolveRecurring (fuel : Nat) (r : GenReq) : Option (Except String (List String)) :=
  match r.startDate with
  | none => some (Except.ok [])
  | some sd =>
    if sd = "" then some (Except.ok []) else
      match parseDateStr sd with
      | none => some (Except.error "Invalid date format")
      | some start =>
        let endParsed : Option DateYMD :=
          match r.endDate with
          | some ed => if ed = "" then some start else parseDateStr ed
          | none => some start
        match endParsed with
        | none => some (Except.error "Invalid date format")
        | some endD => (dateWalk r.days endD fuel start []).map Except.ok

/-- Date set resolution: the explicit dates branch when a nonempty
dates array is present, otherwise the recurring branch. -/
def resolveDates (fuel : Nat) (r : GenReq) : Option (Except String (List String)) :=
  match r.dates with
  | some ds =>
    if ds.isEmpty then resolveRecurring fuel r
    else some (Except.ok (ds.filter dateValid))
  | none => resolveRecurring fuel r

/-- A slot row built by the generation loop (the generated uuid column
is omitted: no claim concerns it). -/
structure SlotRow where
  subjectId : String
  startTime : String
  duration : Int
  maxCapacity : Int
  currentBookings : Int
  location : String
deriving Repr, DecidableEq

/-- One time range of one date: parse the bounds and run the time
walk.  A NaN bound makes the source while guard false immediately, so
the range yields no slots. -/
def expandRange (lunchOn : Bool) (lS lE duration interval : Int) (fuel : Nat)
    (tr : TimeRange) : Option (List Int) :=
  match parseTimeToMinutes tr.startTime, parseTimeToMinutes tr.endTime with
  | some startMin, some endMin =>
    timeWalk lunchOn lS lE duration interval endMin fuel startMin []
  | _, _ => some []

/-- The rows one (date, range) pair contributes, in emission order. -/
def rangeRows (r : GenReq) (lunchOn : Bool) (lS lE interval : Int) (fuel : Nat)
    (dateStr : String) (tr : TimeRange) : Option (List SlotRow) :=
  (expandRange lunchOn lS lE r.duration interval fuel tr).map
    (List.map fun currMin =>
      ⟨r.subjectId, dateStr ++ " " ++ minutesToTimeStr currMin, r.duration, r.capacity, 0,
        sanitizeString (r.location.getD "")⟩)

/-- The nested generation loops: dates outer, time ranges inner. -/
def buildRows (fuel : Nat) (r : GenReq) (targetDates : List String) : Option (List SlotRow) :=
  let (lS, lE) := lunchMins r
  let lunchOn := r.lunchBreak.isSome
  let interval := r.duration + r.breakTime.getD 0
  (targetDates.mapM fun dateStr =>
      ((effRanges r).mapM fun tr => rangeRows r lunchOn lS lE interval fuel dateStr tr).map
        List.flatten).map List.flatten

/-- Outcome of POST /staff/slots/generate (the batched insert itself is
not modelled: the response reports the generated rows and their
count). -/
inductive GenResult where
  | badRequest (msg : String)
  | ok (count : Nat) (rows : List SlotRow)
deriving Repr, DecidableEq

/-- HTTP status of a generation outcome. -/
def genStatus : GenResult → Nat
  | .badRequest _ => 400
  | .ok _ _ => 200

/-- The POST /staff/slots/generate handler: subject validation, date
resolution, the empty date check, slot expansion, and the empty slot
check.  none models running out of fuel inside a source while loop. -/
def generateSlots (fuel : Nat) (r : GenReq) : Option GenResult :=
  if validStr r.subjectId 1 36 = false then some (GenResult.badRequest "Invalid subject ID")
  else
    match resolveDates fuel r with
    | none => none
    | some (Except.error msg) => some (GenResult.badRequest msg)
    | some (Except.ok targetDates) =>
      if targetDates.isEmpty then some (GenResult.badRequest "No valid dates provided")
      else
        match buildRows fuel r targetDates with
        | none => none
        | some rows =>
          if rows.isEmpty then some (GenResult.badRequest "No slots generated")
          else some (GenResult.ok rows.length rows)

/-- The C6 scenario request: recurring 2024-02-26 to 2024-03-02,
Thursdays only, window 09:00 to 10:00, 20 minute slots, no gap. -/
def c6Req : GenReq :=
  { subjectId := "subj12345", dates := none, startDate := some "2024-02-26",
    endDate := some "2024-03-02", timeRanges := some [⟨"09:00", "10:00"⟩],
    startTime := none, endTime := none, duration := 20, capacity := 5,
    days := some [4], breakTime := some 0, location := none, lunchBreak := none }

/-- C6: the recurring walk uses the Zeller congruence normalized to
0 = Sunday and rolls dates over month and year boundaries with the
Gregorian leap rule; the scenario spec yields exactly the three slots
2024-02-29 09:00, 09:20 and 09:40, since Feb 29 2024 is a Thursday.
The extra conjuncts check the boundary behaviour the claim names: Feb
29 exists in 2024 and 2000 but not in 2023 or 1900, and Dec 31 rolls
into the next year. -/
theorem recurring_leap_thursday_scenario :
    generateSlots 10 c6Req = some (GenResult.ok 3
      [⟨"subj12345", "2024-02-29 09:00:00", 20, 5, 0, ""⟩,
       ⟨"subj12345", "2024-02-29 09:20:00", 20, 5, 0, ""⟩,
       ⟨"subj12345", "2024-02-29 09:40:00", 20, 5, 0, ""⟩]) ∧
    getDayOfWeek 2024 2 29 = 4 ∧
    addDays 2024 2 28 1 = ⟨2024, 2, 29⟩ ∧
    addDays 2023 2 28 1 = ⟨2023, 3, 1⟩ ∧
    addDays 2024 2 29 1 = ⟨2024, 3, 1⟩ ∧
    addDays 1900 2 28 1 = ⟨1900, 3, 1⟩ ∧
    addDays 2000 2 28 1 = ⟨2000, 2, 29⟩ ∧
    addDays 2024 12 31 1 = ⟨2025, 1, 1⟩ := by
  decide

/-- A request with one valid explicit date and no time windows at all. -/
def c4Req : GenReq :=
  { subjectId := "subj12345", dates := some ["2024-03-04"], startDate := none,
    endDate := none, timeRanges := none, startTime := none, endTime := none,
    duration := 60, capacity := 5, days := none, breakTime := none,
    location := none, lunchBreak := none }

/-- C4 counterexample: a generation request that provides no time
windows does not fail with a 4xx validation error; the handler
substitutes the default 09:00 to 17:00 window and answers 200. -/
theorem generate_no_time_windows_succeeds :
    (generateSlots 50 c4Req).map genStatus = some 200 := by
  decide

/-- A request whose dates are valid but whose only window is too short
for the requested duration, so expansion yields zero slots. -/
def c4ZeroReq : GenReq :=
  { subjectId := "subj12345", dates := some ["2024-03-04"], startDate := none,
    endDate := none, timeRanges := some [⟨"09:00", "09:30"⟩], startTime := none,
    endTime := none, duration := 60, capacity := 5, days := none, breakTime := none,
    location := none, lunchBreak := none }

/-- A request that resolves to no valid dates (its only date string is
empty). -/
def c4NoDatesReq : GenReq :=
  { subjectId := "subj12345", dates := some [""], startDate := none,
    endDate := none, timeRanges := none, startTime := none, endTime := none,
    duration := 60, capacity := 5, days := none, breakTime := none,
    location := none, lunchBreak := none }

/-- C4 amended: the endpoint fails 400 No valid dates provided when no
valid dates resolve; when no time windows are provided it substitutes
the default 09:00 to 17:00 window instead of failing; and a valid
specification that yields zero slots produces a 400 No slots generated
error, distinguishable from the no dates error only by its message,
not a count 0 success. -/
theorem generate_validation_amended :
    (∀ fuel r, validStr r.subjectId 1 36 = true →
        resolveDates fuel r = some (Except.ok []) →
        generateSlots fuel r = some (GenResult.badRequest "No valid dates provided")) ∧
    (∀ r, r.timeRanges = none →
        effRanges r = [⟨jsOrStr r.startTime "09:00", jsOrStr r.endTime "17:00"⟩]) ∧
    (∀ fuel r targetDates, validStr r.subjectId 1 36 = true →
        resolveDates fuel r = some (Except.ok targetDates) → targetDates ≠ [] →
        buildRows fuel r targetDates = some [] →
        generateSlots fuel r = some (GenResult.badRequest "No slots generated")) := by
  refine ⟨?_, ?_, ?_⟩
  · intro fuel r hv hres
    simp [generateSlots, hv, hres]
  · intro r h
    simp [effRanges, h]
  · intro fuel r targetDates hv hres hne hrows
    simp [generateSlots, hv, hres, hrows, List.isEmpty_iff, hne]

/-- Witness for the C4 amended theorem at concrete requests. -/
theorem generate_validation_amended_wit :
    generateSlots 1 c4NoDatesReq = some (GenResult.badRequest "No valid dates provided") ∧
    effRanges c4Req = [⟨"09:00", "17:00"⟩] ∧
    generateSlots 1 c4ZeroReq = some (GenResult.badRequest "No slots generated") := by
  refine ⟨?_, ?_, ?_⟩
  · exact generate_validation_amended.1 1 c4NoDatesReq (by decide) (by rfl)
  · exact generate_validation_amended.2.1 c4Req (by rfl)
  · exact generate_validation_amended.2.2 1 c4ZeroReq ["2024-03-04"] (by decide) (by rfl)
      (by decide) (by rfl)

/-- A request whose configured lunch window starts at midnight: the
source truthiness guard on the parsed lunch start (value 0) disables
the lunch skip entirely. -/
def c5Req : GenReq :=
  { subjectId := "subj12345", dates := some ["2024-03-04"], startDate := none,
    endDate := none, timeRanges := some [⟨"09:00", "10:00"⟩], startTime := none,
    endTime := none, duration := 20, capacity := 5, days := none, breakTime := some 0,
    location := none, lunchBreak := some ⟨some "00:00", some "13:00"⟩ }

/-- C5 counterexample: with the configured lunch window 00:00 to 13:00
(minutes 0 and 780) the handler still emits the slot starting at
minute 540, whose interval overlaps the lunch interval under the
overlap test of the claim (540 < 780 and 540 + 20 > 0), because the
lunch guard treats the parsed start value 0 as falsy and never skips. -/
theorem generate_midnight_lunch_overlap :
    generateSlots 50 c5Req = some (GenResult.ok 3
      [⟨"subj12345", "2024-03-04 09:00:00", 20, 5, 0, ""⟩,
       ⟨"subj12345", "2024-03-04 09:20:00", 20, 5, 0, ""⟩,
       ⟨"subj12345", "2024-03-04 09:40:00", 20, 5, 0, ""⟩]) ∧
    lunchMins c5Req = (0, 780) ∧ ((540 : Int) < 780 ∧ (540 : Int) + 20 > 0) := by
  refine ⟨by rfl, by rfl, by decide⟩

/-- C5 amended: for lunch windows whose start and end both parse to a
nonzero minute value, every start minute the walk emits fails the
overlap test against the lunch interval, and a candidate slot that
overlaps makes the walk resume from the lunch end instead of advancing
by one step. -/
theorem lunch_exclusion_amended (lS lE dur intv endMin : Int)
    (hS : lS ≠ 0) (hE : lE ≠ 0) :
    (∀ fuel curr acc out,
        timeWalk true lS lE dur intv endMin fuel curr acc = some out →
        ∀ t ∈ out, t ∈ acc ∨ ¬(t < lE ∧ t + dur > lS)) ∧
    (∀ fuel curr acc, curr + dur ≤ endMin → curr < lE → curr + dur > lS →
        timeWalk true lS lE dur intv endMin (fuel + 1) curr acc =
          timeWalk true lS lE dur intv endMin fuel lE acc) := by
  constructor
  · intro fuel
    induction fuel with
    | zero =>
      intro curr acc out h t ht
      unfold timeWalk at h
      split at h
      · exact Option.noConfusion h
      · cases h
        exact Or.inl ht
    | succ n ih =>
      intro curr acc out h t ht
      unfold timeWalk at h
      split at h
      · split at h
        · exact ih lE acc out h t ht
        · rename_i hcond
          rcases ih _ _ _ h t ht with hin | hsafe
          · rcases List.mem_append.mp hin with h1 | h2
            · exact Or.inl h1
            · have ht' : t = curr := by simpa using h2
              subst ht'
              exact Or.inr (fun hover => hcond ⟨rfl, hS, hE, hover.1, hover.2⟩)
          · exact Or.inr hsafe
      · cases h
        exact Or.inl ht
  · intro fuel curr acc hg hlt hgt
    conv_lhs => unfold timeWalk
    rw [if_pos hg, if_pos ⟨rfl, hS, hE, hlt, hgt⟩]

/-- Witness for the C5 amended theorem: with lunch 12:00 to 13:00 the
walk over the window 09:00 to 09:20 emits exactly the minute 540,
which does not overlap the lunch interval. -/
theorem lunch_exclusion_amended_wit :
    (540 : Int) ∈ ([] : List Int) ∨ ¬((540 : Int) < 780 ∧ (540 : Int) + 20 > 720) :=
  (lunch_exclusion_amended 720 780 20 20 560 (by decide) (by decide)).1
    5 540 [] [540] (by rfl) 540 (by decide)

/-- C10: the time window walk terminates whenever the step
duration + breakTime is at least 1 (any fuel at least the remaining
window length suffices), and it genuinely diverges without that
precondition: with duration 0, gap 0 and a window whose start equals
its end, every fuel is exhausted, so the source loop never ends. -/
theorem timewalk_termination_iff :
    (∀ (lunchOn : Bool) (lS lE dur intv endMin : Int) (fuel : Nat) (curr : Int)
        (acc : List Int), 1 ≤ intv → (endMin - dur - curr + 1).toNat ≤ fuel →
        (timeWalk lunchOn lS lE dur intv endMin fuel curr acc).isSome = true) ∧
    (∀ (fuel : Nat) (acc : List Int), timeWalk false 0 0 0 0 540 fuel 540 acc = none) := by
  constructor
  · intro lunchOn lS lE dur intv endMin fuel
    induction fuel with
    | zero =>
      intro curr acc h1 h2
      unfold timeWalk
      split
      · rename_i hg
        omega
      · simp
    | succ n ih =>
      intro curr acc h1 h2
      unfold timeWalk
      split
      · rename_i hg
        split
        · rename_i hcond
          have hlt : curr < lE := hcond.2.2.2.1
          exact ih lE acc h1 (by omega)
        · exact ih (curr + intv) (acc ++ [curr]) h1 (by omega)
      · simp
  · intro fuel
    induction fuel with
    | zero =>
      intro acc
      unfold timeWalk
      rw [if_pos (by decide)]
    | succ n ih =>
      intro acc
      unfold timeWalk
      rw [if_pos (by decide), if_neg (by simp)]
      simpa using ih (acc ++ [540])

/-- Witness for C10 at concrete inputs: a positive step terminates
within the stated fuel and the zero step input diverges at fuel 3. -/
theorem timewalk_termination_iff_wit :
    (timeWalk true 0 0 1 1 2 2 0 []).isSome = true ∧
    timeWalk false 0 0 0 0 540 3 540 [] = none :=
  ⟨timewalk_termination_iff.1 true 0 0 1 1 2 2 0 [] (by decide) (by decide),
   timewalk_termination_iff.2 3 []⟩


lemma find?_map_of_id (sid : String) (f : Slot → Slot)
    (hid : ∀ sl, (f sl).id = sl.id) :
    ∀ l : List Slot, (l.map f).find? (fun sl => sl.id == sid)
      = (l.find? (fun sl => sl.id == sid)).map f := by
  intro l
  induction l with
  | nil => rfl
  | cons hd tl ih =>
    simp only [List.map_cons, List.find?]
    rw [hid hd]
    cases hc : (hd.id == sid)
    · simp only [ih]
    · rfl

lemma findSlot_condIncrement (s : DBState) (sid : String) (e : Int) :
    findSlot (condIncrement s sid e) sid
      = (findSlot s sid).map (fun sl =>
          if sl.id = sid ∧ sl.currentBookings = e ∧ sl.currentBookings < sl.maxCapacity
          then { sl with currentBookings := sl.currentBookings + 1 } else sl) := by
  unfold findSlot condIncrement
  exact find?_map_of_id sid _ (fun sl => by split <;> rfl) s.slots

lemma findSlot_flooredDecrement (s : DBState) (sid : String) :
    findSlot (flooredDecrement s sid) sid
      = (findSlot s sid).map (fun sl =>
          if sl.id = sid
          then { sl with currentBookings := max (sl.currentBookings - 1) 0 } else sl) := by
  unfold findSlot flooredDecrement
  exact find?_map_of_id sid _ (fun sl => by split <;> rfl) s.slots

lemma findSlot_id (s : DBState) (sid : String) (sl : Slot)
    (h : findSlot s sid = some sl) : sl.id = sid := by
  have hp := List.find?_some h
  simpa using hp

/-- C2: when the booking row insert fails after a successful
conditional increment, the handler rethrows after the compensating
floored decrement, the slot counter is back at its pre-attempt value,
and the bookings table is unchanged, so no row for the attempt
exists. -/
theorem insert_failure_compensation (s : DBState) (slotId rawSid bid : String)
    (sl : Slot)
    (hnodup : hasBooking s slotId (sanitizeString rawSid) = false)
    (hfind : findSlot s slotId = some sl)
    (hcb : 0 ≤ sl.currentBookings)
    (hlt : sl.currentBookings < sl.maxCapacity) :
    (bookingAdmission s slotId rawSid bid false).1 = BookResult.insertFailed ∧
    statusOf (bookingAdmission s slotId rawSid bid false).1 = 500 ∧
    (findSlot (bookingAdmission s slotId rawSid bid false).2 slotId).map Slot.currentBookings
      = some sl.currentBookings ∧
    (bookingAdmission s slotId rawSid bid false).2.bookings = s.bookings := by
  have hid : sl.id = slotId := findSlot_id s slotId sl hfind
  simp [bookingAdmission, hnodup, hfind, findSlot_condIncrement, findSlot_flooredDecrement,
    hid, hlt, not_le.mpr hlt, statusOf,
    (by omega : ¬ (sl.currentBookings + 1 ≤ sl.currentBookings)),
    (by omega : max (sl.currentBookings + 1 - 1) 0 = sl.currentBookings)]
  exact ⟨hcb, rfl⟩

/-- A state holding one slot with capacity 2 and one current booking. -/
def compState : DBState :=
  ⟨[⟨"slot1", "subj1", "2025-01-10 09:00:00", 20, 2, 1, ""⟩], []⟩

/-- Witness for C2 at a concrete state and inputs. -/
theorem insert_failure_compensation_wit :
    (bookingAdmission compState "slot1" "S9" "b9" false).1 = BookResult.insertFailed ∧
    statusOf (bookingAdmission compState "slot1" "S9" "b9" false).1 = 500 ∧
    (findSlot (bookingAdmission compState "slot1" "S9" "b9" false).2 "slot1").map
      Slot.currentBookings = some (1 : Int) ∧
    (bookingAdmission compState "slot1" "S9" "b9" false).2.bookings = compState.bookings :=
  insert_failure_compensation compState "slot1" "S9" "b9"
    ⟨"slot1", "subj1", "2025-01-10 09:00:00", 20, 2, 1, ""⟩
    (by decide) (by rfl) (by decide) (by decide)

/-- The C1 initial state: one slot with maxCapacity 1 and
currentBookings 0, no bookings. -/
def oneSeatState : DBState :=
  ⟨[⟨"slot1", "subj1", "2025-01-10 09:00:00", 20, 1, 0, ""⟩], []⟩

/-- C1: on a slot with maxCapacity 1 and currentBookings 0, two
sequential attempts with distinct (sanitized) requester ids give a 200
success carrying the booking id for the first and a 409 slot full
rejection for the second, leaving currentBookings at 1. -/
theorem booking_sequential_fill (sid1 sid2 bid1 bid2 : String)
    (h : sanitizeString sid1 ≠ sanitizeString sid2) :
    (bookingAdmission oneSeatState "slot1" sid1 bid1 true).1 = BookResult.success bid1 ∧
    statusOf (bookingAdmission oneSeatState "slot1" sid1 bid1 true).1 = 200 ∧
    (bookingAdmission (bookingAdmission oneSeatState "slot1" sid1 bid1 true).2
        "slot1" sid2 bid2 true).1 = BookResult.slotFull "Sorry, this slot is fully booked!" ∧
    statusOf (bookingAdmission (bookingAdmission oneSeatState "slot1" sid1 bid1 true).2
        "slot1" sid2 bid2 true).1 = 409 ∧
    (findSlot (bookingAdmission (bookingAdmission oneSeatState "slot1" sid1 bid1 true).2
        "slot1" sid2 bid2 true).2 "slot1").map Slot.currentBookings = some 1 := by
  have h1 : bookingAdmission oneSeatState "slot1" sid1 bid1 true
      = (BookResult.success bid1,
         ⟨[⟨"slot1", "subj1", "2025-01-10 09:00:00", 20, 1, 1, ""⟩],
          [⟨bid1, "slot1", sanitizeString sid1⟩]⟩) := rfl
  have h2 : hasBooking
      ⟨[⟨"slot1", "subj1", "2025-01-10 09:00:00", 20, 1, 1, ""⟩],
       [⟨bid1, "slot1", sanitizeString sid1⟩]⟩ "slot1" (sanitizeString sid2) = false := by
    simp [hasBooking]
    exact fun heq => absurd heq h
  rw [h1]
  refine ⟨rfl, rfl, ?_, ?_, ?_⟩ <;>
    simp [bookingAdmission, h2, findSlot, statusOf, List.find?]

/-- Witness for C1 with two concrete distinct student ids. -/
theorem booking_sequential_fill_wit :
    (bookingAdmission oneSeatState "slot1" "S1" "b1" true).1 = BookResult.success "b1" ∧
    statusOf (bookingAdmission oneSeatState "slot1" "S1" "b1" true).1 = 200 ∧
    (bookingAdmission (bookingAdmission oneSeatState "slot1" "S1" "b1" true).2
        "slot1" "S2" "b2" true).1 = BookResult.slotFull "Sorry, this slot is fully booked!" ∧
    statusOf (bookingAdmission (bookingAdmission oneSeatState "slot1" "S1" "b1" true).2
        "slot1" "S2" "b2" true).1 = 409 ∧
    (findSlot (bookingAdmission (bookingAdmission oneSeatState "slot1" "S1" "b1" true).2
        "slot1" "S2" "b2" true).2 "slot1").map Slot.currentBookings = some 1 :=
  booking_sequential_fill "S1" "S2" "b1" "b2" (by decide)

lemma pairCount_zero_of_not_hasBooking (s : DBState) (x y : String)
    (h : hasBooking s x y = false) : pairCount s x y = 0 := by
  unfold hasBooking at h
  unfold pairCount
  simp only [List.any_eq_false] at h
  simp only [List.length_eq_zero, List.filter_eq_nil_iff]
  exact fun b hb => by simpa using h b hb

/-- C3: a booking request whose (slot id, sanitized student id) pair
already has a booking row is rejected with the 400 duplicate error and
the state is untouched, and one admission attempt preserves the bound
of at most one booking row per (slot id, student id) pair. -/
theorem duplicate_rejection_uniqueness (s : DBState) (slotId rawSid bid : String)
    (insertOk : Bool) :
    (hasBooking s slotId (sanitizeString rawSid) = true →
      bookingAdmission s slotId rawSid bid insertOk
        = (BookResult.badRequest "You have already booked this slot", s) ∧
      statusOf (bookingAdmission s slotId rawSid bid insertOk).1 = 400) ∧
    ((∀ a b, pairCount s a b ≤ 1) →
      ∀ a b, pairCount (bookingAdmission s slotId rawSid bid insertOk).2 a b ≤ 1) := by
  constructor
  · intro hdup
    have hkey : bookingAdmission s slotId rawSid bid insertOk
        = (BookResult.badRequest "You have already booked this slot", s) := by
      unfold bookingAdmission
      rw [if_pos hdup]
    exact ⟨hkey, by rw [hkey]; rfl⟩
  · intro hbound a b
    by_cases hdup : hasBooking s slotId (sanitizeString rawSid) = true
    · unfold bookingAdmission
      rw [if_pos hdup]
      exact hbound a b
    · have hdup' : hasBooking s slotId (sanitizeString rawSid) = false :=
        Bool.eq_false_iff.mpr hdup
      unfold bookingAdmission
      rw [if_neg hdup]
      cases hfind : findSlot s slotId with
      | none => exact hbound a b
      | some slot =>
        dsimp only
        split
        · exact hbound a b
        · split
          · exact hbound a b
          · split
            · exact hbound a b
            · split
              · -- the insert branch appends one row for the pair
                unfold pairCount at hbound ⊢
                dsimp only
                rw [List.filter_append, List.length_append]
                by_cases hmatch :
                    (slotId == a && sanitizeString rawSid == b) = true
                · have ha : slotId = a := by
                    have := (Bool.and_eq_true _ _).mp hmatch
                    simpa using this.1
                  have hb : sanitizeString rawSid = b := by
                    have := (Bool.and_eq_true _ _).mp hmatch
                    simpa using this.2
                  have hzero : pairCount s a b = 0 := by
                    rw [← ha, ← hb]
                    exact pairCount_zero_of_not_hasBooking s slotId
                      (sanitizeString rawSid) hdup'
                  unfold pairCount at hzero
                  rw [show (condIncrement s slotId slot.currentBookings).bookings
                    = s.bookings from rfl, hzero]
                  simp [hmatch]
                · simp only [List.filter, hmatch]
                  simpa using hbound a b
              · exact hbound a b

/-- A state with one existing duplicate booking row for slot1 and S1. -/
def dupState : DBState :=
  ⟨[⟨"slot1", "subj1", "2025-01-10 09:00:00", 20, 2, 1, ""⟩], [⟨"b0", "slot1", "S1"⟩]⟩

/-- Witness for C3 at a concrete duplicated request. -/
theorem duplicate_rejection_uniqueness_wit :
    (bookingAdmission dupState "slot1" "S1" "b1" true
        = (BookResult.badRequest "You have already booked this slot", dupState) ∧
      statusOf (bookingAdmission dupState "slot1" "S1" "b1" true).1 = 400) ∧
    pairCount (bookingAdmission dupState "slot1" "S1" "b1" true).2 "slot1" "S1" ≤ 1 :=
  ⟨(duplicate_rejection_uniqueness dupState "slot1" "S1" "b1" true).1 (by decide),
   (duplicate_rejection_uniqueness dupState "slot1" "S1" "b1" true).2
     (fun a b => le_trans (List.length_filter_le _ _) (by decide)) "slot1" "S1"⟩

/-- A state with one slot at capacity 2 holding one booking. -/
def editState : DBState :=
  ⟨[⟨"s1", "subj1", "2025-01-10 09:00:00", 20, 2, 1, ""⟩], []⟩

/-- C7 counterexample: the staff slot edit lowers max_capacity to 0
with no guard, so a committed staff edit leaves a state violating
0 <= currentBookings <= maxCapacity (the slot keeps its one booking but
now has capacity 0). -/
theorem staff_capacity_edit_breaks_invariant :
    dbInvariant editState ∧
    ¬ dbInvariant (staffUpdateSlot editState "s1" (some 0) none none none) := by
  unfold dbInvariant slotInvariant
  decide

lemma dbInvariant_condIncrement (s : DBState) (sid : String) (e : Int)
    (h : dbInvariant s) : dbInvariant (condIncrement s sid e) := by
  intro sl hsl
  obtain ⟨a, ha, rfl⟩ := List.mem_map.mp hsl
  have hinv := h a ha
  unfold slotInvariant at hinv ⊢
  split
  · rename_i hc
    have h1 := hinv.1
    have h3 := hc.2.2
    constructor <;> simp <;> omega
  · exact hinv

lemma dbInvariant_flooredDecrement (s : DBState) (sid : String)
    (h : dbInvariant s) : dbInvariant (flooredDecrement s sid) := by
  intro sl hsl
  obtain ⟨a, ha, rfl⟩ := List.mem_map.mp hsl
  have hinv := h a ha
  unfold slotInvariant at hinv ⊢
  split
  · have h1 := hinv.1
    have h2 := hinv.2
    refine ⟨by simp [le_max_iff], by simp [max_le_iff]; omega⟩
  · exact hinv

/-- C7 amended: the capacity invariant is preserved by every committed
state of a booking admission attempt (increment, insert, compensating
decrement), by cancellation, and is established by single slot creation
when the effective capacity is nonnegative; the staff slot edit,
however, is unguarded and can break it (see the counterexample). -/
theorem slot_invariant_amended :
    (∀ s slotId rawSid bid insertOk, dbInvariant s →
        dbInvariant (bookingAdmission s slotId rawSid bid insertOk).2) ∧
    (∀ s bid s2, dbInvariant s → cancelBooking s bid = some s2 → dbInvariant s2) ∧
    (∀ s slotId subjectId startTime duration capacity location, dbInvariant s →
        0 ≤ jsOrInt capacity 1 →
        dbInvariant (createSlot s slotId subjectId startTime duration capacity location)) := by
  refine ⟨?_, ?_, ?_⟩
  · intro s slotId rawSid bid insertOk h
    unfold bookingAdmission
    split
    · exact h
    · split
      · exact h
      · split
        · exact h
        · split
          · exact dbInvariant_condIncrement _ _ _ h
          · split
            · exact dbInvariant_condIncrement _ _ _ h
            · split
              · exact fun sl hsl => dbInvariant_condIncrement _ _ _ h sl hsl
              · exact dbInvariant_flooredDecrement _ _
                  (dbInvariant_condIncrement _ _ _ h)
  · intro s bid s2 h hc
    unfold cancelBooking at hc
    split at hc
    · exact Option.noConfusion hc
    · cases hc
      exact dbInvariant_flooredDecrement _ _ (fun sl hsl => h sl hsl)
  · intro s slotId subjectId startTime duration capacity location h hcap
    intro sl hsl
    rcases List.mem_append.mp hsl with hin | hnew
    · exact h sl hin
    · have : sl = ⟨slotId, subjectId, startTime, jsOrInt duration 20,
          jsOrInt capacity 1, 0, sanitizeString (location.getD "")⟩ := by
        simpa using hnew
      subst this
      exact ⟨le_refl 0, hcap⟩

/-- Witness for C7 amended: a successful admission, a cancellation and
a slot creation from concrete invariant states keep the invariant. -/
theorem slot_invariant_amended_wit :
    dbInvariant (bookingAdmission editState "s1" "S1" "b1" true).2 ∧
    dbInvariant (⟨[⟨"slot1", "subj1", "2025-01-10 09:00:00", 20, 2, 0, ""⟩], []⟩ : DBState) ∧
    dbInvariant (createSlot editState "s2" "subj1" "t" none (some 3) none) :=
  ⟨slot_invariant_amended.1 editState "s1" "S1" "b1" true
     (by unfold dbInvariant slotInvariant; decide),
   slot_invariant_amended.2.1 dupState "b0" _
     (by unfold dbInvariant slotInvariant; decide) (by rfl),
   slot_invariant_amended.2.2 editState "s2" "subj1" "t" none (some 3) none
     (by unfold dbInvariant slotInvariant; decide) (by decide)⟩

lemma addDaysLoop_of_le (fuel : Nat) (y m day feb len : Nat)
    (hm : monthLen feb m = some len) (hle : day ≤ len) :
    addDaysLoop fuel y m day feb = ⟨y, m, day⟩ := by
  cases fuel with
  | zero => rfl
  | succ f =>
    unfold addDaysLoop
    split
    · rfl
    · rename_i len2 heq
      rw [hm] at heq
      injection heq with h
      subst h
      rw [if_neg (by omega)]

lemma addDaysLoop_step (fuel : Nat) (y m day feb len : Nat)
    (hm : monthLen feb m = some len) (hgt : day > len) :
    addDaysLoop (fuel + 1) y m day feb =
      if m + 1 > 12 then
        addDaysLoop fuel (y + 1) 1 (day - len) (if isLeapYear (y + 1) then 29 else 28)
      else addDaysLoop fuel y (m + 1) (day - len) feb := by
  conv_lhs => unfold addDaysLoop
  split
  · rename_i heq
    simp [hm] at heq
  · rename_i len2 heq
    rw [hm] at heq
    injection heq with h
    subst h
    rw [if_pos hgt]

/-- A calendar valid date: month in 1..12 and day within the month
length for the year of the date. -/
def validDate (d : DateYMD) : Prop :=
  1 ≤ d.month ∧ d.month ≤ 12 ∧ 1 ≤ d.day ∧
  d.day ≤ (monthLen (if isLeapYear d.year then 29 else 28) d.month).getD 0

lemma monthLen_pos (feb m : Nat) (h1 : 1 ≤ m) (hm : m ≤ 12) (hfeb : 1 ≤ feb) :
    ∃ len, monthLen feb m = some len ∧ 1 ≤ len := by
  interval_cases m <;> exact ⟨_, rfl, by omega⟩

lemma addDays_one_gt (d : DateYMD) (hv : validDate d) :
    0 < compareDates (addDays d.year d.month d.day 1) d := by
  obtain ⟨hm1, hm2, hd1, hd2⟩ := hv
  obtain ⟨len, hlen, hlen1⟩ :=
    monthLen_pos (if isLeapYear d.year then 29 else 28) d.month hm1 hm2 (by split <;> omega)
  rw [hlen] at hd2
  simp only [Option.getD_some] at hd2
  unfold addDays
  show 0 < compareDates (addDaysLoop ((d.day + 2) + 1) d.year d.month (d.day + 1)
    (if isLeapYear d.year then 29 else 28)) d
  by_cases hcase : d.day + 1 ≤ len
  · rw [addDaysLoop_of_le _ _ _ _ _ _ hlen hcase]
    simp [compareDates]
  · have hday : d.day = len := by omega
    rw [addDaysLoop_step _ _ _ _ _ _ hlen (by omega)]
    have hsub : d.day + 1 - len = 1 := by omega
    rw [hsub]
    by_cases h12 : d.month + 1 > 12
    · rw [if_pos h12]
      have h31 : monthLen (if isLeapYear (d.year + 1) then 29 else 28) 1 = some 31 := rfl
      rw [addDaysLoop_of_le _ _ _ _ _ _ h31 (by omega)]
      simp [compareDates]
    · rw [if_neg h12]
      obtain ⟨len2, hlen2, hlen21⟩ :=
        monthLen_pos (if isLeapYear d.year then 29 else 28) (d.month + 1)
          (by omega) (by omega) (by split <;> omega)
      rw [addDaysLoop_of_le _ _ _ _ _ _ hlen2 (by omega)]
      simp [compareDates]

lemma dateWalk_stop (days : Option (List Int)) (endD : DateYMD) (fuel : Nat)
    (current : DateYMD) (acc : List String)
    (h : 0 < compareDates current endD) :
    dateWalk days endD fuel current acc = some acc := by
  cases fuel with
  | zero =>
    unfold dateWalk
    rw [if_neg (by omega)]
  | succ f =>
    unfold dateWalk
    rw [if_neg (by omega)]

/-- C8: in recurring mode with a startDate and no endDate, the end of
the range defaults to the start, so the resolved date set is exactly
the single start day when the day filter keeps its weekday, and empty
otherwise. -/
theorem recurring_default_end_single_day (fuel : Nat) (r : GenReq) (sd : String)
    (d : DateYMD) (hdates : r.dates = none) (hsd : r.startDate = some sd)
    (hne : sd ≠ "") (hend : r.endDate = none) (hparse : parseDateStr sd = some d)
    (hvalid : validDate d) (hfuel : 1 ≤ fuel) :
    resolveDates fuel r = some (Except.ok
      (if daysMatch r.days (getDayOfWeek d.year d.month d.day) then [fmtDate d] else [])) := by
  obtain ⟨f, rfl⟩ : ∃ f, fuel = f + 1 := ⟨fuel - 1, by omega⟩
  unfold resolveDates resolveRecurring
  simp only [hdates, hsd]
  rw [if_neg hne]
  simp only [hparse, hend]
  unfold dateWalk
  rw [if_pos (show compareDates d d ≤ 0 by simp [compareDates])]
  rw [dateWalk_stop _ _ _ _ _ (addDays_one_gt d hvalid)]
  simp

/-- A recurring request with a startDate and no endDate. -/
def c8Req : GenReq :=
  { subjectId := "subj12345", dates := none, startDate := some "2024-02-26",
    endDate := none, timeRanges := some [⟨"09:00", "10:00"⟩], startTime := none,
    endTime := none, duration := 20, capacity := 5, days := none, breakTime := some 0,
    location := none, lunchBreak := none }

/-- Witness for C8: with startDate 2024-02-26 and no endDate the
resolved date set is exactly that single day. -/
theorem recurring_default_end_single_day_wit :
    resolveDates 5 c8Req = some (Except.ok
      (if daysMatch c8Req.days (getDayOfWeek 2024 2 26) then [fmtDate ⟨2024, 2, 26⟩]
       else [])) :=
  recurring_default_end_single_day 5 c8Req "2024-02-26" ⟨2024, 2, 26⟩ rfl rfl
    (by decide) rfl (by rfl) (by unfold validDate; decide) (by decide)

/-- C9: with a nonempty explicit dates array the resolution is the
list filtered to syntactically valid date strings, whatever the day of
week filter says: the days parameter has no effect on the outcome and
invalid date strings are silently dropped. -/
theorem explicit_dates_bypass_day_filter (fuel : Nat) (r : GenReq) (l : List String)
    (hd : r.dates = some l) (hne : l ≠ []) :
    ∀ ds, resolveDates fuel { r with days := ds }
      = some (Except.ok (l.filter dateValid)) := by
  intro ds
  unfold resolveDates
  simp only [hd]
  rw [if_neg (by simp [List.isEmpty_iff, hne])]

/-- An explicit dates request carrying an invalid date string and a
restrictive day filter. -/
def c9Req : GenReq :=
  { subjectId := "subj12345", dates := some ["2024-03-04", "garbage", "2024-03-05"],
    startDate := none, endDate := none, timeRanges := some [⟨"09:00", "10:00"⟩],
    startTime := none, endTime := none, duration := 20, capacity := 5,
    days := some [0], breakTime := some 0, location := none, lunchBreak := none }

/-- Witness for C9: both explicit dates survive although neither falls
on the filtered weekday, and the invalid string is dropped; replacing
the day filter changes nothing. -/
theorem explicit_dates_bypass_day_filter_wit :
    resolveDates 1 { c9Req with days := some [3] }
      = some (Except.ok ["2024-03-04", "2024-03-05"]) := by
  have h := explicit_dates_bypass_day_filter 1 c9Req
    ["2024-03-04", "garbage", "2024-03-05"] rfl (by decide) (some [3])
  rw [h]
  rfl
